import Mathlib

/-!
Shallow embedding of the bench-allocation broker of this repository:
the ResourceManager (src/resource_manager/manager.py), the HealthChecker
(src/resource_manager/health_check.py), the PSU cross-process file lock
(src/drivers/psu_driver.py) and the CoffinInterferenceManager frequency
arbiter (src/test_cycle.py), together with proofs of the specified
properties.

Python dictionaries are modelled as association lists with unique keys
(a Python dict can never hold two entries with the same key); `setKey`
models `d[k] = v`, `eraseKey` models `del d[k]` / `d.pop(k)`, and
`lookupKey` models `d.get(k)`.
-/

/-- Association-list lookup, modelling Python `dict.get`. -/
def lookupKey {α β : Type} [DecidableEq α] (k : α) : List (α × β) → Option β
  | [] => none
  | p :: t => if p.1 = k then some p.2 else lookupKey k t

/-- Association-list update, modelling Python `d[k] = v`: replaces the
binding of `k` when present, otherwise appends it (Python dicts keep
insertion order and updating an existing key keeps its position). -/
def setKey {α β : Type} [DecidableEq α] (k : α) (v : β) : List (α × β) → List (α × β)
  | [] => [(k, v)]
  | p :: t => if p.1 = k then (k, v) :: t else p :: setKey k v t

/-- Association-list removal, modelling Python `del d[k]` / `d.pop(k)`.
Keys are unique in a Python dict, so removing every binding of `k`
coincides with removing the one binding. -/
def eraseKey {α β : Type} [DecidableEq α] (k : α) (l : List (α × β)) : List (α × β) :=
  l.filter (fun p => p.1 ≠ k)

theorem lookupKey_setKey_self {α β : Type} [DecidableEq α] (k : α) (v : β)
    (l : List (α × β)) : lookupKey k (setKey k v l) = some v := by
  induction l with
  | nil => simp [setKey, lookupKey]
  | cons p t ih =>
    by_cases h : p.1 = k
    · simp [setKey, h, lookupKey]
    · simp [setKey, h, lookupKey, ih]

theorem lookupKey_setKey_ne {α β : Type} [DecidableEq α] {k k' : α} (v : β)
    (l : List (α × β)) (h : k' ≠ k) :
    lookupKey k' (setKey k v l) = lookupKey k' l := by
  have hk : ¬ (k = k') := fun h' => h h'.symm
  induction l with
  | nil => simp [setKey, lookupKey, hk]
  | cons p t ih =>
    by_cases hp : p.1 = k
    · have hp' : ¬ (p.1 = k') := by rw [hp]; exact hk
      simp [setKey, hp, lookupKey, hk, hp']
    · simp only [setKey, if_neg hp, lookupKey]
      by_cases hp' : p.1 = k'
      · simp [hp']
      · simp [hp', ih]

theorem lookupKey_eraseKey_self {α β : Type} [DecidableEq α] (k : α)
    (l : List (α × β)) : lookupKey k (eraseKey k l) = none := by
  induction l with
  | nil => simp [eraseKey, lookupKey]
  | cons p t ih =>
    by_cases h : p.1 = k
    · simpa [eraseKey, h] using ih
    · simpa [eraseKey, h, lookupKey] using ih

theorem lookupKey_eraseKey_ne {α β : Type} [DecidableEq α] {k k' : α}
    (l : List (α × β)) (h : k' ≠ k) :
    lookupKey k' (eraseKey k l) = lookupKey k' l := by
  induction l with
  | nil => simp [eraseKey, lookupKey]
  | cons p t ih =>
    simp only [eraseKey, List.filter_cons, ne_eq, decide_not] at ih ⊢
    by_cases hp : p.1 = k
    · have hp' : ¬ (p.1 = k') := by rw [hp]; exact fun h' => h h'.symm
      rw [if_neg (by simp [hp])]
      rw [ih]
      simp [lookupKey, hp']
    · rw [if_pos (by simp [hp])]
      simp [lookupKey, ih]

theorem lookupKey_none_iff {α β : Type} [DecidableEq α] (k : α)
    (l : List (α × β)) : lookupKey k l = none ↔ ∀ p ∈ l, p.1 ≠ k := by
  induction l with
  | nil => simp [lookupKey]
  | cons p t ih =>
    by_cases h : p.1 = k
    · simp [lookupKey, h]
    · simp [lookupKey, h, ih]

theorem lookupKey_some_mem {α β : Type} [DecidableEq α] {k : α} {v : β}
    {l : List (α × β)} (h : lookupKey k l = some v) : (k, v) ∈ l := by
  induction l with
  | nil => simp [lookupKey] at h
  | cons p t ih =>
    obtain ⟨a, b⟩ := p
    by_cases hp : a = k
    · simp [lookupKey, hp] at h
      subst hp
      subst h
      exact List.mem_cons_self _ _
    · simp [lookupKey, hp] at h
      exact List.mem_cons_of_mem _ (ih h)

theorem mem_setKey {α β : Type} [DecidableEq α] {k : α} {v : β}
    {p : α × β} {l : List (α × β)} (h : p ∈ setKey k v l) :
    p = (k, v) ∨ p ∈ l := by
  induction l with
  | nil => simpa [setKey] using h
  | cons q t ih =>
    by_cases hq : q.1 = k
    · simp only [setKey, if_pos hq, List.mem_cons] at h
      rcases h with h | h
      · exact Or.inl h
      · exact Or.inr (List.mem_cons_of_mem _ h)
    · simp only [setKey, if_neg hq, List.mem_cons] at h
      rcases h with h | h
      · exact Or.inr (by simp [h])
      · rcases ih h with h' | h'
        · exact Or.inl h'
        · exact Or.inr (List.mem_cons_of_mem _ h')

theorem mem_eraseKey {α β : Type} [DecidableEq α] {k : α}
    {p : α × β} {l : List (α × β)} :
    p ∈ eraseKey k l ↔ p ∈ l ∧ p.1 ≠ k := by
  simp [eraseKey, List.mem_filter]

theorem keys_setKey_subset {α β : Type} [DecidableEq α] {k : α} {v : β}
    {a : α} {l : List (α × β)} (h : a ∈ (setKey k v l).map Prod.fst) :
    a = k ∨ a ∈ l.map Prod.fst := by
  simp only [List.mem_map] at h
  rcases h with ⟨p, hp, rfl⟩
  rcases mem_setKey hp with h' | h'
  · left; rw [h']
  · right; exact List.mem_map_of_mem _ h'

theorem keys_nodup_setKey {α β : Type} [DecidableEq α] (k : α) (v : β)
    {l : List (α × β)} (h : (l.map Prod.fst).Nodup) :
    ((setKey k v l).map Prod.fst).Nodup := by
  induction l with
  | nil => simp [setKey]
  | cons p t ih =>
    simp only [List.map_cons, List.nodup_cons] at h
    by_cases hp : p.1 = k
    · simp only [setKey, if_pos hp, List.map_cons, List.nodup_cons]
      exact ⟨by rw [← hp]; exact h.1, h.2⟩
    · simp only [setKey, if_neg hp, List.map_cons, List.nodup_cons]
      refine ⟨?_, ih h.2⟩
      intro hmem
      rcases keys_setKey_subset hmem with h' | h'
      · exact hp h'
      · exact h.1 h'

theorem keys_nodup_eraseKey {α β : Type} [DecidableEq α] (k : α)
    {l : List (α × β)} (h : (l.map Prod.fst).Nodup) :
    ((eraseKey k l).map Prod.fst).Nodup := by
  exact List.Nodup.sublist (List.Sublist.map Prod.fst (List.filter_sublist l)) h

/-! ## Health checker (src/resource_manager/health_check.py)

A single attempt of a named check either passes, fails, or raises an
exception (`HealthChecker._run_check_with_retry` catches the exception
and treats the attempt as failed). -/

/-- Outcome of one attempt of one check: pass, ordinary failure, or a
raised exception (caught by `_run_check_with_retry`). -/
inductive CheckOutcome : Type where
  | pass : CheckOutcome
  | fail : CheckOutcome
  | exn : CheckOutcome
deriving DecidableEq, Repr

/-- Loop body of `HealthChecker._run_check_with_retry`: iterate over the
attempt numbers in order, returning true at the first passing attempt;
a failing attempt and an attempt that raises both just continue to the
next attempt; return false when attempts are exhausted. -/
def runAttempts (f : Nat → CheckOutcome) : List Nat → Bool
  | [] => false
  | a :: rest =>
    match f a with
    | CheckOutcome.pass => true
    | CheckOutcome.fail => runAttempts f rest
    | CheckOutcome.exn => runAttempts f rest

/-- `HealthChecker._run_check_with_retry`: attempts are numbered
`1, ..., retry_count` (Python `range(1, retry_count + 1)`). -/
def runCheckWithRetry (f : Nat → CheckOutcome) (retry_count : Nat) : Bool :=
  runAttempts f (List.range' 1 retry_count)

/-- `HealthCheckResult` of src/resource_manager/health_check.py (the
`message` and `details` fields are informational strings and counters
derived from the fields kept here). -/
structure HealthCheckResult : Type where
  bench_id : String
  healthy : Bool
  checks : List (String × Bool)
deriving DecidableEq, Repr

/-- `HealthChecker.check_bench`: runs the three named checks in order
(`ping_uut`, `verify_psu`, `ptp_connectivity`), each through
`_run_check_with_retry`; `healthy` starts true and is cleared whenever a
check's final verdict is false. `outcome c a` gives the outcome of
attempt `a` of check `c` against this bench's connection. -/
def checkBench (bench_id : String) (outcome : String → Nat → CheckOutcome)
    (retry_count : Nat) : HealthCheckResult :=
  let names := ["ping_uut", "verify_psu", "ptp_connectivity"]
  let r := names.foldl
    (fun (acc : List (String × Bool) × Bool) (name : String) =>
      let passed := runCheckWithRetry (outcome name) retry_count
      (acc.1 ++ [(name, passed)], if passed then acc.2 else false))
    ([], true)
  { bench_id := bench_id, healthy := r.2, checks := r.1 }

/-- Mock-mode outcome of one attempt (`_check_ping_uut`, `_check_verify_psu`,
`_check_ptp_connectivity` with `mock_mode = True`): the check fails iff its
name is in the configured `_mock_failures` list for this bench, and never
raises; the outcome does not depend on the attempt number. -/
def mockOutcome (mock_failures : List (String × List String)) (bench_id : String)
    (check_name : String) (_attempt : Nat) : CheckOutcome :=
  if check_name ∈ (lookupKey bench_id mock_failures).getD [] then
    CheckOutcome.fail
  else
    CheckOutcome.pass

/-! ## ResourceManager (src/resource_manager/manager.py) -/

/-- State enumeration `BenchState` of manager.py. -/
inductive BenchState : Type where
  | available : BenchState
  | busy : BenchState
  | maintenance : BenchState
  | offline : BenchState
deriving DecidableEq, Repr

/-- One bench record of the `benches` configuration list: `bench_id`,
`hardware_type`, `location` and the flattened `connection` block
(`connection.get` with defaults, as read by `request_resource` and
`get_bench_status`). -/
structure Bench : Type where
  bench_id : String
  hardware_type : String
  uut_ip : String
  psu_ip : String
  ptp_ip : String
  psu_port : Nat
  uut_port : Nat
  location : String
deriving DecidableEq, Repr

/-- `ResourceMetadata` of manager.py. -/
structure ResourceMetadata : Type where
  bench_id : String
  hardware_type : String
  uut_ip : String
  psu_ip : String
  ptp_ip : String
  psu_port : Nat
  uut_port : Nat
  location : String
  allocated_at : Nat
  health_check_result : Option HealthCheckResult
deriving Repr

/-- The three `ResourceAllocationError` raise sites of
`ResourceManager.request_resource`, distinguished the way §7 of the
design names them. -/
inductive AllocError : Type where
  | concurrencyLimit : AllocError
  | noMatchingBench : AllocError
  | allUnhealthy : AllocError
deriving DecidableEq, Repr

/-- Mutable state of a `ResourceManager` instance: `_benches` (a dict
keyed by `bench_id`, kept here as the list of its values in insertion
order), `_bench_states`, `_allocations` (bench_id -> job_id),
`_max_concurrent_jobs` and `_mark_offline_on_failure`. -/
structure ManagerState : Type where
  benches : List Bench
  bench_states : List (String × BenchState)
  allocations : List (String × String)
  max_concurrent_jobs : Nat
  mark_offline_on_failure : Bool
deriving Repr

/-- `ResourceManager._find_candidates`: benches whose `hardware_type`
matches and whose state is AVAILABLE, in inventory iteration order.
The Python code collects the bench ids and immediately maps them back
through the `_benches` dict; since that dict is keyed by `bench_id`, the
bench records themselves are collected here. -/
def findCandidates (s : ManagerState) (hardware_type : String) : List Bench :=
  s.benches.filter (fun b =>
    decide (b.hardware_type = hardware_type) &&
    decide (lookupKey b.bench_id s.bench_states = some BenchState.available))

/-- Allocation step of `ResourceManager.request_resource` once a
candidate has passed (or skipped) its health check: mark the bench BUSY,
record the allocation under an effective job id, and build the returned
`ResourceMetadata`. `now` stands for `int(time.time())`. -/
def allocateBench (s : ManagerState) (b : Bench) (hardware_type job_id : String)
    (health_result : Option HealthCheckResult) (now : Nat) :
    ResourceMetadata × ManagerState :=
  let effective_job_id :=
    if job_id = "" then "auto-" ++ b.bench_id ++ "-" ++ toString now else job_id
  let s' : ManagerState :=
    { s with
      bench_states := setKey b.bench_id BenchState.busy s.bench_states,
      allocations := setKey b.bench_id effective_job_id s.allocations }
  ({ bench_id := b.bench_id,
     hardware_type := hardware_type,
     uut_ip := b.uut_ip,
     psu_ip := b.psu_ip,
     ptp_ip := b.ptp_ip,
     psu_port := b.psu_port,
     uut_port := b.uut_port,
     location := b.location,
     allocated_at := now,
     health_check_result := health_result }, s')

/-- Candidate loop of `ResourceManager.request_resource`: for each
candidate in order, run the health check unless skipped; on failure,
optionally mark the bench OFFLINE and continue; on the first success,
allocate and return. When the loop exhausts the candidates the
all-candidates-failed `ResourceAllocationError` is raised. `checker`
stands for `self._health_checker.check_bench` restricted to this call. -/
def tryCandidates (hardware_type job_id : String) (skip_health_check : Bool)
    (checker : Bench → HealthCheckResult) (now : Nat) :
    ManagerState → List Bench → (Except AllocError ResourceMetadata) × ManagerState
  | s, [] => (Except.error AllocError.allUnhealthy, s)
  | s, b :: rest =>
    if skip_health_check then
      let r := allocateBench s b hardware_type job_id none now
      (Except.ok r.1, r.2)
    else
      let hr := checker b
      if hr.healthy then
        let r := allocateBench s b hardware_type job_id (some hr) now
        (Except.ok r.1, r.2)
      else
        let s' :=
          if s.mark_offline_on_failure then
            { s with bench_states := setKey b.bench_id BenchState.offline s.bench_states }
          else s
        tryCandidates hardware_type job_id skip_health_check checker now s' rest

/-- `ResourceManager.request_resource`. The pair's second component is
the manager state after the call (a raise leaves the state as mutated so
far: the two early raises mutate nothing, the all-unhealthy raise keeps
the OFFLINE marks made during the loop). -/
def requestResource (s : ManagerState) (hardware_type job_id : String)
    (skip_health_check : Bool) (checker : Bench → HealthCheckResult) (now : Nat) :
    (Except AllocError ResourceMetadata) × ManagerState :=
  if s.allocations.length ≥ s.max_concurrent_jobs then
    (Except.error AllocError.concurrencyLimit, s)
  else
    let candidates := findCandidates s hardware_type
    if candidates.isEmpty then
      (Except.error AllocError.noMatchingBench, s)
    else
      tryCandidates hardware_type job_id skip_health_check checker now s candidates

/-- `ResourceManager.release_resource`. -/
def releaseResource (s : ManagerState) (bench_id : String) : Bool × ManagerState :=
  match lookupKey bench_id s.allocations with
  | none => (false, s)
  | some _ =>
    (true,
     { s with
       allocations := eraseKey bench_id s.allocations,
       bench_states := setKey bench_id BenchState.available s.bench_states })

/-- `ResourceManager.set_bench_state`: administrative override; when the
bench leaves BUSY its allocation record is popped. -/
def setBenchState (s : ManagerState) (bench_id : String) (state : BenchState) :
    Bool × ManagerState :=
  if s.benches.any (fun b => decide (b.bench_id = bench_id)) then
    let old_state := (lookupKey bench_id s.bench_states).getD BenchState.offline
    let s1 : ManagerState :=
      { s with bench_states := setKey bench_id state s.bench_states }
    let s2 : ManagerState :=
      if old_state = BenchState.busy ∧ state ≠ BenchState.busy then
        { s1 with allocations := eraseKey bench_id s1.allocations }
      else s1
    (true, s2)
  else
    (false, s)

/-- A public `ResourceManager` operation (`request_resource`,
`release_resource`, `set_bench_state`), with its arguments. -/
inductive MgrOp : Type where
  | request (hardware_type job_id : String) (skip_health_check : Bool)
      (checker : Bench → HealthCheckResult) (now : Nat) : MgrOp
  | release (bench_id : String) : MgrOp
  | setState (bench_id : String) (state : BenchState) : MgrOp

/-- Effect of one public operation on the manager state (return values
discarded). -/
def MgrOp.apply (s : ManagerState) : MgrOp → ManagerState
  | MgrOp.request hardware_type job_id skip checker now =>
    (requestResource s hardware_type job_id skip checker now).2
  | MgrOp.release bench_id => (releaseResource s bench_id).2
  | MgrOp.setState bench_id state => (setBenchState s bench_id state).2

/-- Run a sequence of public operations. -/
def runOps (s : ManagerState) (ops : List MgrOp) : ManagerState :=
  ops.foldl MgrOp.apply s

/-- True for the `setState` operation, false for `request`/`release`. -/
def MgrOp.isSetState : MgrOp → Bool
  | MgrOp.setState _ _ => true
  | _ => false

/-- Sequences built from `request_resource` and `release_resource` only. -/
def opsNoSetState (ops : List MgrOp) : Prop :=
  ∀ op ∈ ops, op.isSetState = false

/-! ## CoffinInterferenceManager (src/test_cycle.py)

Frequencies are Python floats used only as dict keys (compared for
equality, never computed with); they are modelled by rationals. -/

/-- `FrequencyAllocation` dataclass of src/test_cycle.py. -/
structure FrequencyAllocation : Type where
  bench_id : String
  frequency_ghz : ℚ
  in_use : Bool
deriving DecidableEq, Repr

/-- State of a `CoffinInterferenceManager`: `_allocations`
(bench_id -> FrequencyAllocation) and `_lock_holders`
(frequency -> bench_id). -/
structure CoffinState : Type where
  allocations : List (String × FrequencyAllocation)
  lock_holders : List (ℚ × String)
deriving DecidableEq, Repr

/-- The state `CoffinInterferenceManager.__init__` builds: both dicts
empty. -/
def emptyCoffin : CoffinState :=
  { allocations := [], lock_holders := [] }

/-- `CoffinInterferenceManager.request_frequency`: deny when the
frequency has a holder other than the requesting bench; otherwise record
the requester as holder and overwrite the bench's allocation record. -/
def requestFrequency (s : CoffinState) (bench_id : String) (frequency_ghz : ℚ) :
    Bool × CoffinState :=
  match lookupKey frequency_ghz s.lock_holders with
  | some holder =>
    if holder ≠ bench_id then
      (false, s)
    else
      (true,
       { allocations :=
           setKey bench_id
             { bench_id := bench_id, frequency_ghz := frequency_ghz, in_use := true }
             s.allocations,
         lock_holders := setKey frequency_ghz bench_id s.lock_holders })
  | none =>
    (true,
     { allocations :=
         setKey bench_id
           { bench_id := bench_id, frequency_ghz := frequency_ghz, in_use := true }
           s.allocations,
       lock_holders := setKey frequency_ghz bench_id s.lock_holders })

/-- `CoffinInterferenceManager.release_frequency`: only if the bench has
an allocation record, and only if the bench is the recorded holder of
that record's frequency, is the holder entry deleted; the allocation
record itself is always deleted when present. -/
def releaseFrequency (s : CoffinState) (bench_id : String) : CoffinState :=
  match lookupKey bench_id s.allocations with
  | none => s
  | some alloc =>
    let freq := alloc.frequency_ghz
    let lock_holders' :=
      if lookupKey freq s.lock_holders = some bench_id then
        eraseKey freq s.lock_holders
      else
        s.lock_holders
    { allocations := eraseKey bench_id s.allocations,
      lock_holders := lock_holders' }

/-- `CoffinInterferenceManager.is_frequency_available`. -/
def isFrequencyAvailable (s : CoffinState) (frequency_ghz : ℚ) : Bool :=
  decide (lookupKey frequency_ghz s.lock_holders = none)

/-- `CoffinInterferenceManager.get_active_allocations`: bench_id ->
frequency for every allocation record with `in_use` set. -/
def getActiveAllocations (s : CoffinState) : List (String × ℚ) :=
  (s.allocations.filter (fun p => p.2.in_use)).map
    (fun p => (p.2.bench_id, p.2.frequency_ghz))

/-! ## PSUFileLock (src/drivers/psu_driver.py)

`PSUFileLock.acquire` loops: it tries to create the lock file with
`O_CREAT | O_EXCL`; on `FileExistsError` it consults `_is_stale` and
either force-removes the file or sleeps and retries. `_is_stale` reads
the recorded pid and probes the process with `os.kill(pid, 0)`. The
filesystem and OS responses of one loop iteration are modelled
explicitly; everything `_is_stale` can observe is covered. -/

/-- Result of opening and reading the existing lock file in
`PSUFileLock._is_stale`: either the file's content, or any exception
(unreadable, vanished, permission trouble) from `open`/`read`. -/
inductive ReadResult : Type where
  | ok (content : String) : ReadResult
  | readError : ReadResult
deriving DecidableEq, Repr

/-- Result of the liveness probe `os.kill(pid, 0)`: returned normally
(process alive), raised `ProcessLookupError`, raised `PermissionError`,
or raised some other exception. -/
inductive ProbeResult : Type where
  | alive : ProbeResult
  | noSuchProcess : ProbeResult
  | permissionDenied : ProbeResult
  | probeError : ProbeResult
deriving DecidableEq, Repr

/-- Result of the `os.open(..., O_CREAT | O_EXCL)` attempt in one
iteration of `PSUFileLock.acquire`. -/
inductive CreateResult : Type where
  | created : CreateResult
  | fileExists : CreateResult
  | otherError : CreateResult
deriving DecidableEq, Repr

/-- What one iteration of the `PSUFileLock.acquire` loop does after its
create attempt. -/
inductive StepAction : Type where
  | acquired : StepAction
  | forceRemove : StepAction
  | wait : StepAction
deriving DecidableEq, Repr

/-- `PSUFileLock._is_stale`: any exception while reading the file, an
empty pid string, an unparsable pid string (`int` raising), a probe
reporting `ProcessLookupError` or `PermissionError`, and a probe raising
any other exception (caught by the enclosing `except Exception`) all
yield True (stale); only a probe that returns normally yields False.
`probe pid` stands for the outcome of `os.kill(pid, 0)`. -/
def isStale (read : ReadResult) (probe : Nat → ProbeResult) : Bool :=
  match read with
  | ReadResult.readError => true
  | ReadResult.ok content =>
    let pid_str := content.trim
    if pid_str = "" then
      true
    else
      match pid_str.toNat? with
      | none => true
      | some pid =>
        match probe pid with
        | ProbeResult.alive => false
        | ProbeResult.noSuchProcess => true
        | ProbeResult.permissionDenied => true
        | ProbeResult.probeError => true

/-- One iteration of the `PSUFileLock.acquire` loop: success on
creation; on `FileExistsError`, force-remove exactly when `_is_stale`
returns True, otherwise sleep and retry; on any other creation error,
sleep and retry. -/
def acquireStep (create : CreateResult) (read : ReadResult)
    (probe : Nat → ProbeResult) : StepAction :=
  match create with
  | CreateResult.created => StepAction.acquired
  | CreateResult.fileExists =>
    if isStale read probe then StepAction.forceRemove else StepAction.wait
  | CreateResult.otherError => StepAction.wait

/-! ## Invariants of the allocation broker -/

/-- The no-double-allocation invariant of §8: the allocation map binds
every allocated bench id to exactly one job, and every allocated bench
is BUSY (so a granted, not-yet-released bench can never be granted
again: candidates must be AVAILABLE). -/
def AllocInv (s : ManagerState) : Prop :=
  (s.allocations.map Prod.fst).Nodup ∧
  ∀ p ∈ s.allocations, lookupKey p.1 s.bench_states = some BenchState.busy

/-- The §3 bench invariant as stated: at most one job id per bench, and
a bench has an associated job id iff its state is BUSY. -/
def BusyAllocIff (s : ManagerState) : Prop :=
  (s.allocations.map Prod.fst).Nodup ∧
  ∀ bench_id : String,
    lookupKey bench_id s.bench_states = some BenchState.busy ↔
    (lookupKey bench_id s.allocations).isSome = true

/-! ## Lemmas about the candidate loop -/

theorem mem_findCandidates {s : ManagerState} {hardware_type : String} {b : Bench} :
    b ∈ findCandidates s hardware_type ↔
    b ∈ s.benches ∧ b.hardware_type = hardware_type ∧
      lookupKey b.bench_id s.bench_states = some BenchState.available := by
  simp [findCandidates, List.mem_filter, and_assoc]

theorem tryCandidates_all_unhealthy (hardware_type job_id : String)
    (checker : Bench → HealthCheckResult) (now : Nat) :
    ∀ (cands : List Bench) (s : ManagerState),
      (∀ b ∈ cands, (checker b).healthy = false) →
      (tryCandidates hardware_type job_id false checker now s cands).1 =
          Except.error AllocError.allUnhealthy ∧
      (tryCandidates hardware_type job_id false checker now s cands).2.allocations =
          s.allocations := by
  intro cands
  induction cands with
  | nil => intro s _; simp [tryCandidates]
  | cons b rest ih =>
    intro s hall
    have hb : (checker b).healthy = false := hall b (List.mem_cons_self _ _)
    have hrest : ∀ b' ∈ rest, (checker b').healthy = false :=
      fun b' hb' => hall b' (List.mem_cons_of_mem _ hb')
    simp only [tryCandidates, Bool.false_eq_true, if_false, hb]
    by_cases hm : s.mark_offline_on_failure
    · simpa [hm] using ih _ hrest
    · simpa [hm] using ih _ hrest

theorem tryCandidates_ok_mem (hardware_type job_id : String) (skip : Bool)
    (checker : Bench → HealthCheckResult) (now : Nat) :
    ∀ (cands : List Bench) (s : ManagerState) (m : ResourceMetadata)
      (s' : ManagerState),
      tryCandidates hardware_type job_id skip checker now s cands =
        (Except.ok m, s') →
      (∃ b ∈ cands, m.bench_id = b.bench_id) ∧
      lookupKey m.bench_id s'.bench_states = some BenchState.busy ∧
      (lookupKey m.bench_id s'.allocations).isSome = true := by
  intro cands
  induction cands with
  | nil =>
    intro s m s' h
    simp [tryCandidates] at h
  | cons b rest ih =>
    intro s m s' h
    simp only [tryCandidates] at h
    split at h
    · simp only [allocateBench, Prod.mk.injEq, Except.ok.injEq] at h
      obtain ⟨hm, hs'⟩ := h
      subst hm
      subst hs'
      exact ⟨⟨b, List.mem_cons_self _ _, rfl⟩,
        by simp [lookupKey_setKey_self],
        by simp [lookupKey_setKey_self]⟩
    · split at h
      · simp only [allocateBench, Prod.mk.injEq, Except.ok.injEq] at h
        obtain ⟨hm, hs'⟩ := h
        subst hm
        subst hs'
        exact ⟨⟨b, List.mem_cons_self _ _, rfl⟩,
          by simp [lookupKey_setKey_self],
          by simp [lookupKey_setKey_self]⟩
      · obtain ⟨⟨b', hb', hmb⟩, h2, h3⟩ := ih _ m s' h
        exact ⟨⟨b', List.mem_cons_of_mem _ hb', hmb⟩, h2, h3⟩

theorem tryCandidates_allocInv (hardware_type job_id : String) (skip : Bool)
    (checker : Bench → HealthCheckResult) (now : Nat) :
    ∀ (cands : List Bench) (s : ManagerState),
      AllocInv s →
      (∀ b ∈ cands, lookupKey b.bench_id s.allocations = none) →
      AllocInv (tryCandidates hardware_type job_id skip checker now s cands).2 := by
  intro cands
  induction cands with
  | nil => intro s hinv _; simpa [tryCandidates] using hinv
  | cons b rest ih =>
    intro s hinv hnone
    have hbnone : lookupKey b.bench_id s.allocations = none :=
      hnone b (List.mem_cons_self _ _)
    have hkeys : ∀ p ∈ s.allocations, p.1 ≠ b.bench_id :=
      (lookupKey_none_iff _ _).mp hbnone
    have halloc : ∀ hr : Option HealthCheckResult,
        AllocInv (allocateBench s b hardware_type job_id hr now).2 := by
      intro hr
      constructor
      · simp only [allocateBench]
        exact keys_nodup_setKey _ _ hinv.1
      · intro p hp
        simp only [allocateBench] at hp ⊢
        rcases mem_setKey hp with hpe | hpm
        · subst hpe
          exact lookupKey_setKey_self _ _ _
        · have hne : p.1 ≠ b.bench_id := hkeys p hpm
          rw [lookupKey_setKey_ne _ _ hne]
          exact hinv.2 p hpm
    have hmark : AllocInv
        (if s.mark_offline_on_failure then
          { s with bench_states := setKey b.bench_id BenchState.offline s.bench_states }
        else s) := by
      split
      · constructor
        · exact hinv.1
        · intro p hp
          have hne : p.1 ≠ b.bench_id := hkeys p hp
          show lookupKey p.1 (setKey b.bench_id BenchState.offline s.bench_states) =
            some BenchState.busy
          rw [lookupKey_setKey_ne _ _ hne]
          exact hinv.2 p hp
      · exact hinv
    have hmarknone : ∀ b' ∈ rest,
        lookupKey b'.bench_id
          (if s.mark_offline_on_failure then
            { s with bench_states := setKey b.bench_id BenchState.offline s.bench_states }
          else s).allocations = none := by
      intro b' hb'
      split
      · exact hnone b' (List.mem_cons_of_mem _ hb')
      · exact hnone b' (List.mem_cons_of_mem _ hb')
    simp only [tryCandidates]
    split
    · exact halloc none
    · split
      · exact halloc (some (checker b))
      · exact ih _ hmark hmarknone

theorem tryCandidates_busyIff (hardware_type job_id : String) (skip : Bool)
    (checker : Bench → HealthCheckResult) (now : Nat) :
    ∀ (cands : List Bench) (s : ManagerState),
      BusyAllocIff s →
      (∀ b ∈ cands,
        lookupKey b.bench_id s.bench_states = some BenchState.available ∨
        lookupKey b.bench_id s.bench_states = some BenchState.offline) →
      BusyAllocIff (tryCandidates hardware_type job_id skip checker now s cands).2 := by
  intro cands
  induction cands with
  | nil => intro s hinv _; simpa [tryCandidates] using hinv
  | cons b rest ih =>
    intro s hinv hcand
    have hbst : lookupKey b.bench_id s.bench_states = some BenchState.available ∨
        lookupKey b.bench_id s.bench_states = some BenchState.offline :=
      hcand b (List.mem_cons_self _ _)
    have hbnotbusy : ¬ (lookupKey b.bench_id s.bench_states = some BenchState.busy) := by
      rcases hbst with h | h <;> simp [h]
    have hbnone : (lookupKey b.bench_id s.allocations).isSome = false := by
      rcases hx : (lookupKey b.bench_id s.allocations).isSome with _ | _
      · rfl
      · exact absurd ((hinv.2 b.bench_id).mpr hx) hbnotbusy
    have halloc : ∀ hr : Option HealthCheckResult,
        BusyAllocIff (allocateBench s b hardware_type job_id hr now).2 := by
      intro hr
      constructor
      · simp only [allocateBench]
        exact keys_nodup_setKey _ _ hinv.1
      · intro bid
        simp only [allocateBench]
        by_cases hbid : bid = b.bench_id
        · subst hbid
          rw [lookupKey_setKey_self, lookupKey_setKey_self]
          simp
        · rw [lookupKey_setKey_ne _ _ hbid, lookupKey_setKey_ne _ _ hbid]
          exact hinv.2 bid
    have hmark : BusyAllocIff
        (if s.mark_offline_on_failure then
          { s with bench_states := setKey b.bench_id BenchState.offline s.bench_states }
        else s) := by
      split
      · constructor
        · exact hinv.1
        · intro bid
          show lookupKey bid (setKey b.bench_id BenchState.offline s.bench_states) =
              some BenchState.busy ↔ (lookupKey bid s.allocations).isSome = true
          by_cases hbid : bid = b.bench_id
          · subst hbid
            rw [lookupKey_setKey_self]
            simp [hbnone]
          · rw [lookupKey_setKey_ne _ _ hbid]
            exact hinv.2 bid
      · exact hinv
    have hmarkcand : ∀ b' ∈ rest,
        lookupKey b'.bench_id
          (if s.mark_offline_on_failure then
            { s with bench_states := setKey b.bench_id BenchState.offline s.bench_states }
          else s).bench_states = some BenchState.available ∨
        lookupKey b'.bench_id
          (if s.mark_offline_on_failure then
            { s with bench_states := setKey b.bench_id BenchState.offline s.bench_states }
          else s).bench_states = some BenchState.offline := by
      intro b' hb'
      split
      · show lookupKey b'.bench_id (setKey b.bench_id BenchState.offline s.bench_states) =
            some BenchState.available ∨
          lookupKey b'.bench_id (setKey b.bench_id BenchState.offline s.bench_states) =
            some BenchState.offline
        by_cases hbid : b'.bench_id = b.bench_id
        · right
          rw [hbid, lookupKey_setKey_self]
        · rw [lookupKey_setKey_ne _ _ hbid]
          exact hcand b' (List.mem_cons_of_mem _ hb')
      · exact hcand b' (List.mem_cons_of_mem _ hb')
    simp only [tryCandidates]
    split
    · exact halloc none
    · split
      · exact halloc (some (checker b))
      · exact ih _ hmark hmarkcand

/-! ## Invariant preservation by each public operation -/

theorem requestResource_candidates_unallocated {s : ManagerState}
    {hardware_type : String} (hinv : AllocInv s) :
    ∀ b ∈ findCandidates s hardware_type,
      lookupKey b.bench_id s.allocations = none := by
  intro b hb
  rcases mem_findCandidates.mp hb with ⟨_, _, hav⟩
  rcases hx : lookupKey b.bench_id s.allocations with _ | v
  · rfl
  · have hbusy := hinv.2 (b.bench_id, v) (lookupKey_some_mem hx)
    simp only at hbusy
    rw [hav] at hbusy
    exact absurd hbusy (by simp)

theorem requestResource_allocInv (s : ManagerState) (hardware_type job_id : String)
    (skip : Bool) (checker : Bench → HealthCheckResult) (now : Nat)
    (hinv : AllocInv s) :
    AllocInv (requestResource s hardware_type job_id skip checker now).2 := by
  simp only [requestResource]
  split
  · exact hinv
  · split
    · exact hinv
    · exact tryCandidates_allocInv hardware_type job_id skip checker now _ s hinv
        (requestResource_candidates_unallocated hinv)

theorem releaseResource_allocInv (s : ManagerState) (bench_id : String)
    (hinv : AllocInv s) : AllocInv (releaseResource s bench_id).2 := by
  rw [releaseResource]
  rcases hx : lookupKey bench_id s.allocations with _ | v
  · exact hinv
  · constructor
    · exact keys_nodup_eraseKey _ hinv.1
    · intro p hp
      rcases mem_eraseKey.mp hp with ⟨hpm, hpne⟩
      show lookupKey p.1 (setKey bench_id BenchState.available s.bench_states) =
        some BenchState.busy
      rw [lookupKey_setKey_ne _ _ hpne]
      exact hinv.2 p hpm

theorem setBenchState_allocInv (s : ManagerState) (bench_id : String)
    (state : BenchState) (hinv : AllocInv s) :
    AllocInv (setBenchState s bench_id state).2 := by
  simp only [setBenchState]
  split
  · split
    · -- the bench leaves BUSY: its allocation record is popped
      constructor
      · exact keys_nodup_eraseKey _ hinv.1
      · intro p hp
        rcases mem_eraseKey.mp hp with ⟨hpm, hpne⟩
        show lookupKey p.1 (setKey bench_id state s.bench_states) = some BenchState.busy
        rw [lookupKey_setKey_ne _ _ hpne]
        exact hinv.2 p hpm
    · -- the allocation map is kept
      rename_i hcond
      constructor
      · exact hinv.1
      · intro p hp
        show lookupKey p.1 (setKey bench_id state s.bench_states) = some BenchState.busy
        by_cases hpid : p.1 = bench_id
        · have hbusy := hinv.2 p hp
          rw [hpid] at hbusy
          have hold : (lookupKey bench_id s.bench_states).getD BenchState.offline =
              BenchState.busy := by rw [hbusy]; rfl
          have hstate : state = BenchState.busy := by
            by_contra hne
            exact hcond ⟨hold, hne⟩
          rw [hpid, lookupKey_setKey_self, hstate]
        · rw [lookupKey_setKey_ne _ _ hpid]
          exact hinv.2 p hp
  · exact hinv

theorem requestResource_busyIff (s : ManagerState) (hardware_type job_id : String)
    (skip : Bool) (checker : Bench → HealthCheckResult) (now : Nat)
    (hinv : BusyAllocIff s) :
    BusyAllocIff (requestResource s hardware_type job_id skip checker now).2 := by
  simp only [requestResource]
  split
  · exact hinv
  · split
    · exact hinv
    · apply tryCandidates_busyIff hardware_type job_id skip checker now _ s hinv
      intro b hb
      left
      exact (mem_findCandidates.mp hb).2.2

theorem releaseResource_busyIff (s : ManagerState) (bench_id : String)
    (hinv : BusyAllocIff s) : BusyAllocIff (releaseResource s bench_id).2 := by
  rcases hx : lookupKey bench_id s.allocations with _ | v
  · simpa [releaseResource, hx] using hinv
  · simp only [releaseResource, hx]
    constructor
    · exact keys_nodup_eraseKey _ hinv.1
    · intro bid
      by_cases hbid : bid = bench_id
      · subst hbid
        rw [lookupKey_setKey_self, lookupKey_eraseKey_self]
        simp
      · rw [lookupKey_setKey_ne _ _ hbid, lookupKey_eraseKey_ne _ hbid]
        exact hinv.2 bid

theorem runOps_allocInv : ∀ (ops : List MgrOp) (s : ManagerState),
    AllocInv s → AllocInv (runOps s ops) := by
  intro ops
  induction ops with
  | nil => intro s h; exact h
  | cons op rest ih =>
    intro s h
    show AllocInv (runOps (MgrOp.apply s op) rest)
    apply ih
    cases op with
    | request hardware_type job_id skip checker now =>
      exact requestResource_allocInv s hardware_type job_id skip checker now h
    | release bench_id => exact releaseResource_allocInv s bench_id h
    | setState bench_id state => exact setBenchState_allocInv s bench_id state h

theorem runOps_busyIff : ∀ (ops : List MgrOp) (s : ManagerState),
    opsNoSetState ops → BusyAllocIff s → BusyAllocIff (runOps s ops) := by
  intro ops
  induction ops with
  | nil => intro s _ h; exact h
  | cons op rest ih =>
    intro s hops h
    show BusyAllocIff (runOps (MgrOp.apply s op) rest)
    apply ih
    · intro op' hop'
      exact hops op' (List.mem_cons_of_mem _ hop')
    · have hop : op.isSetState = false := hops op (List.mem_cons_self _ _)
      cases op with
      | request hardware_type job_id skip checker now =>
        exact requestResource_busyIff s hardware_type job_id skip checker now h
      | release bench_id => exact releaseResource_busyIff s bench_id h
      | setState bench_id state => simp [MgrOp.isSetState] at hop

/-! ## Concrete scenarios -/

/-- A bench record with the given id and hardware type and empty
connection info, for the concrete scenarios. -/
def benchOfType (bench_id hardware_type : String) : Bench :=
  { bench_id := bench_id, hardware_type := hardware_type, uut_ip := "",
    psu_ip := "", ptp_ip := "", psu_port := 0, uut_port := 0, location := "" }

/-- The §8 concrete inventory: BENCH-001 and BENCH-002, both of type X,
both AVAILABLE, `max_concurrent_jobs = 4`, `mark_offline_on_failure`
left at its default True. -/
def mgrScenario : ManagerState :=
  { benches := [benchOfType "BENCH-001" "X", benchOfType "BENCH-002" "X"],
    bench_states := [("BENCH-001", BenchState.available),
                     ("BENCH-002", BenchState.available)],
    allocations := [],
    max_concurrent_jobs := 4,
    mark_offline_on_failure := true }

/-- The HealthChecker of the §8 scenario: mock mode, `ping_uut`
configured to fail for BENCH-001 only, `retry_count = 2` (the default). -/
def checkerPingFail : Bench → HealthCheckResult :=
  fun b =>
    checkBench b.bench_id (mockOutcome [("BENCH-001", ["ping_uut"])] b.bench_id) 2

/-- A mock HealthChecker with no configured failures. -/
def checkerAllPass : Bench → HealthCheckResult :=
  fun b => checkBench b.bench_id (mockOutcome [] b.bench_id) 2

/-- A mock HealthChecker failing `ping_uut` for BENCH-001 and
`verify_psu` for BENCH-002 (each candidate fails a different check). -/
def checkerBothFail : Bench → HealthCheckResult :=
  fun b =>
    checkBench b.bench_id
      (mockOutcome [("BENCH-001", ["ping_uut"]), ("BENCH-002", ["verify_psu"])]
        b.bench_id) 2

/-- A request/release-only operation sequence on the scenario inventory. -/
def opsScenario : List MgrOp :=
  [MgrOp.request "X" "job-1" false checkerPingFail 0,
   MgrOp.release "BENCH-002",
   MgrOp.request "X" "job-2" true checkerPingFail 1]

theorem busyAllocIff_mgrScenario : BusyAllocIff mgrScenario := by
  constructor
  · simp [mgrScenario]
  · intro bid
    constructor
    · intro h
      have hmem := lookupKey_some_mem h
      simp [mgrScenario] at hmem
    · intro h
      simp [mgrScenario, lookupKey] at h

theorem allocInv_mgrScenario : AllocInv mgrScenario := by
  constructor
  · simp [mgrScenario]
  · intro p hp
    simp [mgrScenario] at hp

/-! ## Claim theorems -/

/-- C1: For every sequence of RequestResource and ReleaseResource calls,
at no point do two distinct granted (not-yet-released) allocations
reference the same bench id: the allocation map keeps distinct bench-id
keys (each allocated bench id is bound to exactly one job), every
allocated bench is BUSY, a bench is granted only while its state is
AVAILABLE and is marked BUSY (and recorded in the allocation map) on
grant — so a successful request can never return a bench that is
currently allocated. -/
theorem c1_no_double_allocation :
    (∀ (s : ManagerState) (ops : List MgrOp),
        opsNoSetState ops → AllocInv s → AllocInv (runOps s ops)) ∧
    (∀ (s : ManagerState) (hardware_type job_id : String) (skip : Bool)
        (checker : Bench → HealthCheckResult) (now : Nat)
        (m : ResourceMetadata) (s' : ManagerState),
        AllocInv s →
        requestResource s hardware_type job_id skip checker now =
          (Except.ok m, s') →
        lookupKey m.bench_id s.bench_states = some BenchState.available ∧
        lookupKey m.bench_id s'.bench_states = some BenchState.busy ∧
        (lookupKey m.bench_id s'.allocations).isSome = true ∧
        AllocInv s' ∧
        ∀ bench_id : String,
          (lookupKey bench_id s.allocations).isSome = true →
          m.bench_id ≠ bench_id) := by
  constructor
  · intro s ops _ hinv
    exact runOps_allocInv ops s hinv
  · intro s hardware_type job_id skip checker now m s' hinv hreq
    simp only [requestResource] at hreq
    split at hreq
    · simp at hreq
    · split at hreq
      · simp at hreq
      · obtain ⟨⟨b, hb, hmb⟩, hbusy, hsome⟩ :=
          tryCandidates_ok_mem hardware_type job_id skip checker now _ s m s' hreq
        have hav : lookupKey m.bench_id s.bench_states = some BenchState.available := by
          rw [hmb]
          exact (mem_findCandidates.mp hb).2.2
        have hinv' : AllocInv s' := by
          have h := tryCandidates_allocInv hardware_type job_id skip checker now
            (findCandidates s hardware_type) s hinv
            (@requestResource_candidates_unallocated s hardware_type hinv)
          rw [hreq] at h
          exact h
        refine ⟨hav, hbusy, hsome, hinv', ?_⟩
        intro bench_id hbid heq
        rcases Option.isSome_iff_exists.mp hbid with ⟨v, hv⟩
        have hb2 : lookupKey bench_id s.bench_states = some BenchState.busy :=
          hinv.2 (bench_id, v) (lookupKey_some_mem hv)
        rw [heq] at hav
        rw [hav] at hb2
        simp at hb2

/-- C1 witness: the invariant hypotheses are satisfiable and the
invariant holds after a concrete request/release sequence on the §8
inventory. -/
theorem c1_no_double_allocation_witness :
    opsNoSetState opsScenario ∧ AllocInv mgrScenario ∧
    AllocInv (runOps mgrScenario opsScenario) := by
  have h1 : opsNoSetState opsScenario := by
    intro op hop
    simp only [opsScenario, List.mem_cons, List.not_mem_nil, or_false] at hop
    rcases hop with rfl | rfl | rfl <;> rfl
  exact ⟨h1, allocInv_mgrScenario,
    c1_no_double_allocation.1 mgrScenario opsScenario h1 allocInv_mgrScenario⟩

/-- C4 counterexample: from the scenario state (which satisfies the
claimed invariant), the public operation SetBenchState(BENCH-001, BUSY)
succeeds and yields a reachable state in which BENCH-001 is BUSY but has
no associated job id, so the claimed "job associated iff BUSY" fails. -/
theorem c4_counterexample :
    BusyAllocIff mgrScenario ∧
    (setBenchState mgrScenario "BENCH-001" BenchState.busy).1 = true ∧
    lookupKey "BENCH-001"
      (setBenchState mgrScenario "BENCH-001" BenchState.busy).2.bench_states =
      some BenchState.busy ∧
    lookupKey "BENCH-001"
      (setBenchState mgrScenario "BENCH-001" BenchState.busy).2.allocations = none ∧
    ¬ BusyAllocIff (setBenchState mgrScenario "BENCH-001" BenchState.busy).2 := by
  refine ⟨busyAllocIff_mgrScenario, rfl, rfl, rfl, ?_⟩
  intro hbad
  have hb : lookupKey "BENCH-001"
      (setBenchState mgrScenario "BENCH-001" BenchState.busy).2.bench_states =
      some BenchState.busy := rfl
  have h := (hbad.2 "BENCH-001").mp hb
  have hnone : lookupKey "BENCH-001"
      (setBenchState mgrScenario "BENCH-001" BenchState.busy).2.allocations = none := rfl
  rw [hnone] at h
  simp at h

/-- C4 (amended): in every reachable state at most one job id is
associated with any bench and every bench with an associated job id is
BUSY, under all three public operations; the full "associated iff BUSY"
invariant is preserved by RequestResource and ReleaseResource, but
SetBenchState(bench, BUSY) can make an unallocated bench BUSY with no
associated job id. -/
theorem c4_busy_iff_invariant :
    (∀ (s : ManagerState) (ops : List MgrOp),
        AllocInv s → AllocInv (runOps s ops)) ∧
    (∀ (s : ManagerState) (ops : List MgrOp),
        opsNoSetState ops → BusyAllocIff s → BusyAllocIff (runOps s ops)) :=
  ⟨fun s ops h => runOps_allocInv ops s h,
   fun s ops hops h => runOps_busyIff ops s hops h⟩

/-- C4 witness: both invariant hypotheses are satisfiable and preserved
on the concrete scenario and operation sequence. -/
theorem c4_busy_iff_invariant_witness :
    AllocInv mgrScenario ∧ opsNoSetState opsScenario ∧
    BusyAllocIff mgrScenario ∧
    AllocInv (runOps mgrScenario opsScenario) ∧
    BusyAllocIff (runOps mgrScenario opsScenario) := by
  have h1 : opsNoSetState opsScenario := by
    intro op hop
    simp only [opsScenario, List.mem_cons, List.not_mem_nil, or_false] at hop
    rcases hop with rfl | rfl | rfl <;> rfl
  exact ⟨allocInv_mgrScenario, h1, busyAllocIff_mgrScenario,
    c4_busy_iff_invariant.1 mgrScenario opsScenario allocInv_mgrScenario,
    c4_busy_iff_invariant.2 mgrScenario opsScenario h1 busyAllocIff_mgrScenario⟩

/-- C5: whenever the number of current allocations equals
max_concurrent_jobs, any further RequestResource call fails with the
concurrency-limit error regardless of the requested hardware type, and
the manager state is returned unchanged. -/
theorem c5_ceiling_enforcement (s : ManagerState) (hardware_type job_id : String)
    (skip : Bool) (checker : Bench → HealthCheckResult) (now : Nat)
    (h : s.allocations.length = s.max_concurrent_jobs) :
    requestResource s hardware_type job_id skip checker now =
      (Except.error AllocError.concurrencyLimit, s) := by
  simp [requestResource, h.ge]

/-- A state at the concurrency ceiling: one bench, one allocation,
max_concurrent_jobs 1. -/
def mgrAtCeiling : ManagerState :=
  { benches := [benchOfType "BENCH-001" "X", benchOfType "BENCH-002" "Y"],
    bench_states := [("BENCH-001", BenchState.busy),
                     ("BENCH-002", BenchState.available)],
    allocations := [("BENCH-001", "job-1")],
    max_concurrent_jobs := 1,
    mark_offline_on_failure := true }

/-- C5 witness: the ceiling hypothesis holds in a concrete full state
and the call fails with the concurrency-limit error for a hardware type
that still has an AVAILABLE bench. -/
theorem c5_ceiling_enforcement_witness :
    mgrAtCeiling.allocations.length = mgrAtCeiling.max_concurrent_jobs ∧
    requestResource mgrAtCeiling "Y" "job-2" false checkerAllPass 5 =
      (Except.error AllocError.concurrencyLimit, mgrAtCeiling) :=
  ⟨rfl, c5_ceiling_enforcement mgrAtCeiling "Y" "job-2" false checkerAllPass 5 rfl⟩

/-- C6: if every AVAILABLE candidate of the requested hardware type
fails its health check (under the concurrency ceiling, with at least one
candidate and health checks enabled), RequestResource fails with the
all-candidates-unhealthy error and the allocation map after the call
equals the allocation map before it. -/
theorem c6_all_unhealthy (s : ManagerState) (hardware_type job_id : String)
    (checker : Bench → HealthCheckResult) (now : Nat)
    (hcap : s.allocations.length < s.max_concurrent_jobs)
    (hne : findCandidates s hardware_type ≠ [])
    (hall : ∀ b ∈ findCandidates s hardware_type, (checker b).healthy = false) :
    (requestResource s hardware_type job_id false checker now).1 =
      Except.error AllocError.allUnhealthy ∧
    (requestResource s hardware_type job_id false checker now).2.allocations =
      s.allocations := by
  have h1 : ¬ (s.allocations.length ≥ s.max_concurrent_jobs) := not_le.mpr hcap
  have h2 : ¬ ((findCandidates s hardware_type).isEmpty = true) := by
    cases hfc : findCandidates s hardware_type with
    | nil => exact absurd hfc hne
    | cons a t => simp
  simp only [requestResource, h1, if_false, h2]
  exact tryCandidates_all_unhealthy hardware_type job_id checker now
    (findCandidates s hardware_type) s hall

/-- C6 witness: on the §8 inventory with a mock checker failing a
different check on each of the two candidates, the request fails with
the all-unhealthy error and the allocation map is unchanged. -/
theorem c6_all_unhealthy_witness :
    mgrScenario.allocations.length < mgrScenario.max_concurrent_jobs ∧
    findCandidates mgrScenario "X" ≠ [] ∧
    (requestResource mgrScenario "X" "job-9" false checkerBothFail 3).1 =
      Except.error AllocError.allUnhealthy ∧
    (requestResource mgrScenario "X" "job-9" false checkerBothFail 3).2.allocations =
      mgrScenario.allocations := by
  have h := c6_all_unhealthy mgrScenario "X" "job-9" checkerBothFail 3
    (by decide) (by decide) (by decide)
  exact ⟨by decide, by decide, h.1, h.2⟩

/-- C9: releasing a bench that is not currently allocated returns false
and leaves the whole manager state unchanged; releasing an allocated
bench returns true, sets the bench's state to AVAILABLE, removes exactly
its allocation record, and a second release of the same bench returns
false. -/
theorem c9_release_idempotence (s : ManagerState) (bench_id : String) :
    (lookupKey bench_id s.allocations = none →
      releaseResource s bench_id = (false, s)) ∧
    (∀ job_id : String, lookupKey bench_id s.allocations = some job_id →
      (releaseResource s bench_id).1 = true ∧
      lookupKey bench_id (releaseResource s bench_id).2.bench_states =
        some BenchState.available ∧
      (releaseResource s bench_id).2.allocations =
        eraseKey bench_id s.allocations ∧
      lookupKey bench_id (releaseResource s bench_id).2.allocations = none ∧
      (releaseResource (releaseResource s bench_id).2 bench_id).1 = false) := by
  constructor
  · intro h
    simp [releaseResource, h]
  · intro job_id h
    simp only [releaseResource, h]
    refine ⟨trivial, lookupKey_setKey_self _ _ _, trivial, lookupKey_eraseKey_self _ _, ?_⟩
    simp [releaseResource, lookupKey_eraseKey_self]

/-- C9 witness: releasing the allocated BENCH-001 succeeds once and then
fails, and releasing the never-allocated BENCH-002 returns false with
the state unchanged. -/
theorem c9_release_idempotence_witness :
    lookupKey "BENCH-001" mgrAtCeiling.allocations = some "job-1" ∧
    (releaseResource mgrAtCeiling "BENCH-001").1 = true ∧
    lookupKey "BENCH-001" (releaseResource mgrAtCeiling "BENCH-001").2.bench_states =
      some BenchState.available ∧
    lookupKey "BENCH-001" (releaseResource mgrAtCeiling "BENCH-001").2.allocations =
      none ∧
    (releaseResource (releaseResource mgrAtCeiling "BENCH-001").2 "BENCH-001").1 =
      false ∧
    lookupKey "BENCH-002" mgrAtCeiling.allocations = none ∧
    releaseResource mgrAtCeiling "BENCH-002" = (false, mgrAtCeiling) := by
  have h2 := (c9_release_idempotence mgrAtCeiling "BENCH-001").2 "job-1" rfl
  exact ⟨rfl, h2.1, h2.2.1, h2.2.2.2.1, h2.2.2.2.2, rfl,
    (c9_release_idempotence mgrAtCeiling "BENCH-002").1 rfl⟩

theorem runAttempts_eq_true_iff (f : Nat → CheckOutcome) :
    ∀ l : List Nat, runAttempts f l = true ↔ ∃ a ∈ l, f a = CheckOutcome.pass := by
  intro l
  induction l with
  | nil => simp [runAttempts]
  | cons a rest ih =>
    rcases hfa : f a with _ | _ | _
    · simp only [runAttempts, hfa]
      constructor
      · intro _
        exact ⟨a, List.mem_cons_self _ _, hfa⟩
      · intro _
        trivial
    · simp only [runAttempts, hfa]
      rw [ih]
      constructor
      · rintro ⟨x, hx, hfx⟩
        exact ⟨x, List.mem_cons_of_mem _ hx, hfx⟩
      · rintro ⟨x, hx, hfx⟩
        rcases List.mem_cons.mp hx with rfl | hx'
        · rw [hfa] at hfx
          exact absurd hfx (by simp)
        · exact ⟨x, hx', hfx⟩
    · simp only [runAttempts, hfa]
      rw [ih]
      constructor
      · rintro ⟨x, hx, hfx⟩
        exact ⟨x, List.mem_cons_of_mem _ hx, hfx⟩
      · rintro ⟨x, hx, hfx⟩
        rcases List.mem_cons.mp hx with rfl | hx'
        · rw [hfa] at hfx
          exact absurd hfx (by simp)
        · exact ⟨x, hx', hfx⟩

/-- C8: a check run through the retry loop reports success exactly when
some attempt among 1..retry_count passes (so the loop stops at the first
passing attempt, a raising attempt merely counts as a failed attempt,
and the loop always returns a boolean rather than propagating the
exception); and check_bench runs exactly the three named checks, with
`healthy` the conjunction of their final verdicts. -/
theorem c8_check_bench_retry :
    (∀ (f : Nat → CheckOutcome) (retry_count : Nat),
        runCheckWithRetry f retry_count = true ↔
        ∃ a, 1 ≤ a ∧ a ≤ retry_count ∧ f a = CheckOutcome.pass) ∧
    (∀ (bench_id : String) (outcome : String → Nat → CheckOutcome)
        (retry_count : Nat),
        (checkBench bench_id outcome retry_count).healthy =
          (runCheckWithRetry (outcome "ping_uut") retry_count &&
           runCheckWithRetry (outcome "verify_psu") retry_count &&
           runCheckWithRetry (outcome "ptp_connectivity") retry_count) ∧
        (checkBench bench_id outcome retry_count).checks =
          [("ping_uut", runCheckWithRetry (outcome "ping_uut") retry_count),
           ("verify_psu", runCheckWithRetry (outcome "verify_psu") retry_count),
           ("ptp_connectivity",
            runCheckWithRetry (outcome "ptp_connectivity") retry_count)]) := by
  constructor
  · intro f retry_count
    rw [runCheckWithRetry, runAttempts_eq_true_iff]
    constructor
    · rintro ⟨a, ha, hfa⟩
      rw [List.mem_range'_1] at ha
      exact ⟨a, ha.1, by omega, hfa⟩
    · rintro ⟨a, h1, h2, hfa⟩
      exact ⟨a, List.mem_range'_1.mpr ⟨h1, by omega⟩, hfa⟩
  · intro bench_id outcome retry_count
    constructor
    · cases h1 : runCheckWithRetry (outcome "ping_uut") retry_count <;>
      cases h2 : runCheckWithRetry (outcome "verify_psu") retry_count <;>
      cases h3 : runCheckWithRetry (outcome "ptp_connectivity") retry_count <;>
      simp [checkBench, h1, h2, h3]
    · rfl

/-- A liveness probe under which every process is alive (`os.kill`
returns normally for every pid). -/
def probeAlive : Nat → ProbeResult := fun _ => ProbeResult.alive

/-- C3 counterexample: when the existing lock file cannot be read,
liveness cannot be determined (the probe is never consulted — here every
process is alive), yet the acquire loop force-removes the lock instead
of treating it as held. -/
theorem c3_counterexample :
    acquireStep CreateResult.fileExists ReadResult.readError probeAlive =
      StepAction.forceRemove := rfl

/-- C3 (amended): during acquire an existing lock file is force-removed
exactly when _is_stale reports it stale, and _is_stale reports NOT stale
only when the recorded pid is readable, parses, and the liveness probe
returns normally (process alive) — so a lock whose recorded process is
verified alive is never removed, but in every case where liveness cannot
be determined (unreadable file, empty or unparsable pid, probe error)
and when the probe reports the process gone or inaccessible, the lock is
treated as stale and force-removed. -/
theorem c3_stale_lock_handling :
    (∀ (create : CreateResult) (read : ReadResult) (probe : Nat → ProbeResult),
        acquireStep create read probe = StepAction.forceRemove ↔
        (create = CreateResult.fileExists ∧ isStale read probe = true)) ∧
    (∀ (read : ReadResult) (probe : Nat → ProbeResult),
        isStale read probe = false ↔
        ∃ (content : String) (pid : Nat),
          read = ReadResult.ok content ∧
          content.trim.toNat? = some pid ∧
          probe pid = ProbeResult.alive) := by
  constructor
  · intro create read probe
    cases create with
    | created => simp [acquireStep]
    | fileExists =>
      cases hs : isStale read probe with
      | true => simp [acquireStep, hs]
      | false => simp [acquireStep, hs]
    | otherError => simp [acquireStep]
  · intro read probe
    cases read with
    | readError => simp [isStale]
    | ok content =>
      constructor
      · intro hfalse
        by_cases he : content.trim = ""
        · simp [isStale, he] at hfalse
        · rcases hp : content.trim.toNat? with _ | pid
          · simp [isStale, he, hp] at hfalse
          · rcases hpr : probe pid with _ | _ | _ | _
            · exact ⟨content, pid, rfl, hp, hpr⟩
            · simp [isStale, he, hp, hpr] at hfalse
            · simp [isStale, he, hp, hpr] at hfalse
            · simp [isStale, he, hp, hpr] at hfalse
      · rintro ⟨content', pid, hok, hp, hpr⟩
        have hc : content = content' := by injection hok
        subst hc
        have he : ¬ (content.trim = "") := by
          intro h
          rw [h] at hp
          have hn : ("" : String).toNat? = none := rfl
          rw [hn] at hp
          exact Option.noConfusion hp
        simp [isStale, he, hp, hpr]

/-- C7: RequestFrequency grants exactly when the frequency has no
current holder or its holder is the requesting bench itself (idempotent
re-grant), returning false otherwise; and in the A/B scenario, while A
holds F a request by B returns false, and after A releases F a request
by B returns true. -/
theorem c7_frequency_exclusivity :
    (∀ (s : CoffinState) (bench_id : String) (freq : ℚ),
        (requestFrequency s bench_id freq).1 = true ↔
        (lookupKey freq s.lock_holders = none ∨
         lookupKey freq s.lock_holders = some bench_id)) ∧
    (∀ (s : CoffinState) (A B : String) (F : ℚ),
        A ≠ B →
        lookupKey F s.lock_holders = none →
        (requestFrequency s A F).1 = true ∧
        (requestFrequency (requestFrequency s A F).2 B F).1 = false ∧
        (requestFrequency (releaseFrequency (requestFrequency s A F).2 A) B F).1 =
          true) := by
  constructor
  · intro s bench_id freq
    rcases hl : lookupKey freq s.lock_holders with _ | holder
    · simp [requestFrequency, hl]
    · by_cases hh : holder = bench_id
      · subst hh
        simp [requestFrequency, hl]
      · simp [requestFrequency, hl, hh]
  · intro s A B F hAB hF
    have h1 : (requestFrequency s A F).1 = true := by
      simp [requestFrequency, hF]
    have hs1 : (requestFrequency s A F).2 =
        { allocations :=
            setKey A { bench_id := A, frequency_ghz := F, in_use := true }
              s.allocations,
          lock_holders := setKey F A s.lock_holders } := by
      simp [requestFrequency, hF]
    refine ⟨h1, ?_, ?_⟩
    · rw [hs1]
      have hlB : lookupKey F (setKey F A s.lock_holders) = some A :=
        lookupKey_setKey_self _ _ _
      simp [requestFrequency, hlB, hAB]
    · rw [hs1]
      have hrel :
          releaseFrequency
            { allocations :=
                setKey A { bench_id := A, frequency_ghz := F, in_use := true }
                  s.allocations,
              lock_holders := setKey F A s.lock_holders } A =
          { allocations :=
              eraseKey A
                (setKey A { bench_id := A, frequency_ghz := F, in_use := true }
                  s.allocations),
            lock_holders := eraseKey F (setKey F A s.lock_holders) } := by
        simp [releaseFrequency, lookupKey_setKey_self]
      rw [hrel]
      have hnone : lookupKey F (eraseKey F (setKey F A s.lock_holders)) = none :=
        lookupKey_eraseKey_self _ _
      simp [requestFrequency, hnone]

/-- C7 witness: the concrete A/B scenario on frequency 1 starting from
the empty coffin state. -/
theorem c7_frequency_exclusivity_witness :
    ("A" : String) ≠ "B" ∧
    lookupKey (1 : ℚ) emptyCoffin.lock_holders = none ∧
    (requestFrequency emptyCoffin "A" 1).1 = true ∧
    (requestFrequency (requestFrequency emptyCoffin "A" 1).2 "B" 1).1 = false ∧
    (requestFrequency (releaseFrequency (requestFrequency emptyCoffin "A" 1).2 "A")
      "B" 1).1 = true := by
  have h := c7_frequency_exclusivity.2 emptyCoffin "A" "B" 1 (by decide) rfl
  exact ⟨by decide, rfl, h.1, h.2.1, h.2.2⟩

theorem releaseFrequency_leak (A : String) (F1 : ℚ) (s : CoffinState) (b : String)
    (hhold : lookupKey F1 s.lock_holders = some A)
    (halloc : ∀ p ∈ s.allocations, p.2.frequency_ghz ≠ F1) :
    lookupKey F1 (releaseFrequency s b).lock_holders = some A ∧
    (∀ p ∈ (releaseFrequency s b).allocations, p.2.frequency_ghz ≠ F1) := by
  rcases hb : lookupKey b s.allocations with _ | alloc
  · simp only [releaseFrequency, hb]
    exact ⟨hhold, halloc⟩
  · have hfa : alloc.frequency_ghz ≠ F1 :=
      halloc (b, alloc) (lookupKey_some_mem hb)
    simp only [releaseFrequency, hb]
    constructor
    · split
      · show lookupKey F1 (eraseKey alloc.frequency_ghz s.lock_holders) = some A
        rw [lookupKey_eraseKey_ne _ (Ne.symm hfa)]
        exact hhold
      · exact hhold
    · intro p hp
      exact halloc p (mem_eraseKey.mp hp).1

theorem foldl_release_leak (A : String) (F1 : ℚ) :
    ∀ (releases : List String) (s : CoffinState),
      lookupKey F1 s.lock_holders = some A →
      (∀ p ∈ s.allocations, p.2.frequency_ghz ≠ F1) →
      lookupKey F1 (List.foldl releaseFrequency s releases).lock_holders = some A := by
  intro releases
  induction releases with
  | nil => intro s h _; exact h
  | cons b rest ih =>
    intro s h halloc
    have hstep := releaseFrequency_leak A F1 s b h halloc
    exact ih _ hstep.1 hstep.2

/-- C10: starting from the empty coffin state, after a bench A holding
F1 requests a free frequency F2, the call returns true and overwrites
A's single allocation record with F2 while F1 stays recorded as held by
A; thereafter IsFrequencyAvailable(F1) is false and remains false after
every subsequent sequence of ReleaseFrequency calls by any benches, even
though ActiveAllocations lists no allocation for F1. -/
theorem c10_frequency_leak (A : String) (F1 F2 : ℚ) (hne : F1 ≠ F2) :
    (requestFrequency (requestFrequency emptyCoffin A F1).2 A F2).1 = true ∧
    (requestFrequency (requestFrequency emptyCoffin A F1).2 A F2).2.allocations =
      [(A, { bench_id := A, frequency_ghz := F2, in_use := true })] ∧
    lookupKey F1
      (requestFrequency (requestFrequency emptyCoffin A F1).2 A F2).2.lock_holders =
      some A ∧
    isFrequencyAvailable
      (requestFrequency (requestFrequency emptyCoffin A F1).2 A F2).2 F1 = false ∧
    (∀ releases : List String,
      isFrequencyAvailable
        (List.foldl releaseFrequency
          (requestFrequency (requestFrequency emptyCoffin A F1).2 A F2).2 releases)
        F1 = false) ∧
    (∀ p ∈ getActiveAllocations
        (requestFrequency (requestFrequency emptyCoffin A F1).2 A F2).2,
      p.2 ≠ F1) := by
  have hs1 : (requestFrequency emptyCoffin A F1).2 =
      { allocations := [(A, { bench_id := A, frequency_ghz := F1, in_use := true })],
        lock_holders := [(F1, A)] } := rfl
  have hl2 : lookupKey F2 ([(F1, A)] : List (ℚ × String)) = none := by
    simp [lookupKey, hne]
  have hs2 : (requestFrequency (requestFrequency emptyCoffin A F1).2 A F2).2 =
      { allocations := [(A, { bench_id := A, frequency_ghz := F2, in_use := true })],
        lock_holders := [(F1, A), (F2, A)] } := by
    rw [hs1]
    simp [requestFrequency, hl2, setKey, hne]
  have hf1 : (requestFrequency (requestFrequency emptyCoffin A F1).2 A F2).1 =
      true := by
    rw [hs1]
    simp [requestFrequency, hl2]
  have hhold : lookupKey F1 ([(F1, A), (F2, A)] : List (ℚ × String)) = some A := by
    simp [lookupKey]
  have hallocne : ∀ p ∈
      ([(A, { bench_id := A, frequency_ghz := F2, in_use := true })] :
        List (String × FrequencyAllocation)),
      p.2.frequency_ghz ≠ F1 := by
    intro p hp
    simp only [List.mem_singleton] at hp
    subst hp
    exact Ne.symm hne
  refine ⟨hf1, by rw [hs2], by rw [hs2]; exact hhold, ?_, ?_, ?_⟩
  · rw [hs2]
    simp [isFrequencyAvailable, hhold]
  · intro releases
    have h := foldl_release_leak A F1 releases
      (requestFrequency (requestFrequency emptyCoffin A F1).2 A F2).2
      (by rw [hs2]; exact hhold) (by rw [hs2]; exact hallocne)
    simp [isFrequencyAvailable, h]
  · rw [hs2]
    intro p hp
    simp [getActiveAllocations] at hp
    subst hp
    exact Ne.symm hne

/-- C10 witness: the leak at A = "A", F1 = 1, F2 = 2, with a concrete
sequence of release calls by benches "A" and "B". -/
theorem c10_frequency_leak_witness :
    (1 : ℚ) ≠ 2 ∧
    (requestFrequency (requestFrequency emptyCoffin "A" 1).2 "A" 2).1 = true ∧
    lookupKey (1 : ℚ)
      (requestFrequency (requestFrequency emptyCoffin "A" 1).2 "A" 2).2.lock_holders =
      some "A" ∧
    isFrequencyAvailable
      (List.foldl releaseFrequency
        (requestFrequency (requestFrequency emptyCoffin "A" 1).2 "A" 2).2
        ["A", "B"]) 1 = false := by
  have h := c10_frequency_leak "A" 1 2 (by norm_num)
  exact ⟨by norm_num, h.1, h.2.2.1, h.2.2.2.2.1 ["A", "B"]⟩
